import Mathlib

/-!
Verification of the nylas-be backend against its specification.

The development shallowly embeds the request handlers of src/server.js together
with the data model of src/models/emails.js and the reply model.  Stateful
MongoDB collections become Lean lists threaded through the handlers; the unique
index over (userId, subject, snippet) declared in src/models/emails.js becomes
a membership test guarding insertion; JavaScript exceptions become an explicit
error type carrying the name and numeric code a catch block can observe; the
settling of promises under Promise.all is modelled by an explicit settle-result
type.  External services (the Nylas mailbox gateway, the OpenAI completion
engine, the mock credential store) are inputs to the handlers.
-/

namespace NylasBe

/-- A JavaScript error value as observed by a catch block: the error name and
the optional numeric code (a mongoose duplicate-key error carries name
MongoError and code 11000). -/
structure JsError where
  name : String
  code : Option Nat
  deriving DecidableEq, Repr

/-- A participant on a message; the handler reads only its email address. -/
structure Participant where
  email : String
  deriving DecidableEq, Repr

/-- A message of a thread; the ingestion handler reads messages[0].from[0]. -/
structure Message where
  msgFrom : List Participant
  deriving DecidableEq, Repr

/-- A conversation thread returned by the mailbox gateway. -/
structure Thread where
  subject : String
  snippet : String
  messages : List Message
  deriving DecidableEq, Repr

/-- A stored user credential (the mock-db user): id, access token, address. -/
structure Credential where
  id : String
  accessToken : String
  emailAddress : String
  deriving DecidableEq, Repr

/-- One document of the Email collection (src/models/emails.js). -/
structure EmailRecord where
  subject : String
  snippet : String
  fromEmail : String
  ownEmail : String
  userId : String
  deriving DecidableEq, Repr

/-- One document of the Reply collection (models/reply). -/
structure ReplyRecord where
  body : String
  userEmail : String
  deriving DecidableEq, Repr

/-- The body of an HTTP response produced via the res object. -/
inductive RespBody where
  | jsonThreads (threads : List Thread)
  | jsonString (s : String)
  | noBody
  deriving DecidableEq, Repr

/-- An HTTP response produced via the res object: status and body. -/
structure HttpResponse where
  status : Nat
  body : RespBody
  deriving DecidableEq, Repr

/-- res.status(401).json('Unauthorized') as sent by the middleware. -/
def unauthorizedResponse : HttpResponse := ⟨401, .jsonString "Unauthorized"⟩

/-- The console output the handlers can produce. -/
inductive LogEntry where
  | dupEmailExists
  | unexpectedError (e : JsError)
  | promiseAllError (e : JsError)
  deriving DecidableEq, Repr

/-- The key of the unique index declared in src/models/emails.js line 23:
userId, subject, snippet. -/
def emailKey (r : EmailRecord) : String × String × String :=
  (r.userId, r.subject, r.snippet)

/-- Whether the archive already holds a record with the same unique key. -/
def hasKey (archive : List EmailRecord) (r : EmailRecord) : Bool :=
  archive.any (fun x => decide (emailKey x = emailKey r))

/-- The duplicate-key error MongoDB raises on a unique-index violation. -/
def mongoDupError : JsError := ⟨"MongoError", some 11000⟩

/-- The TypeError raised when the handler dereferences a missing
messages[0] or from[0]. -/
def typeError : JsError := ⟨"TypeError", none⟩

/-- emails.create: insert one document into the Email collection.  The unique
index over (userId, subject, snippet) makes the insert fail with the
duplicate-key error when the key is already present; `fault` is the storage
environment and injects any other write failure (none means the write
succeeds). -/
def emailsCreate (fault : EmailRecord → Option JsError) (archive : List EmailRecord)
    (r : EmailRecord) : Except JsError (List EmailRecord) :=
  if hasKey archive r then .error mongoDupError
  else
    match fault r with
    | some e => .error e
    | none => .ok (archive ++ [r])

/-- The fault-free storage environment: every write succeeds. -/
def noFault : EmailRecord → Option JsError := fun _ => none

/-- The record the ingestion handler derives from a thread (src/server.js
lines 146-152): subject, snippet, messages[0].from[0].email, the user's own
address and id.  A thread with no messages, or whose first message has no
sender entries, makes the dereference throw a TypeError. -/
def deriveRecord (u : Credential) (t : Thread) : Except JsError EmailRecord :=
  match t.messages with
  | [] => .error typeError
  | m :: _ =>
    match m.msgFrom with
    | [] => .error typeError
    | p :: _ => .ok ⟨t.subject, t.snippet, p.email, u.emailAddress, u.id⟩

/-- The body of one mapped promise before its catch: derive the record and
attempt the insert. -/
def attemptInsert (fault : EmailRecord → Option JsError) (u : Credential)
    (archive : List EmailRecord) (t : Thread) : Except JsError (List EmailRecord) :=
  match deriveRecord u t with
  | .error e => .error e
  | .ok r => emailsCreate fault archive r

/-- The test of the catch block in src/server.js line 154:
error.name === MongoError and error.code === 11000. -/
def isDupError (e : JsError) : Bool :=
  decide (e.name = "MongoError") && decide (e.code = some 11000)

/-- The catch block of one mapped promise (src/server.js lines 153-159): a
duplicate-key error is logged as already-exists, any other error is logged as
unexpected; the archive is untouched either way. -/
def catchInsertError (archive : List EmailRecord) (e : JsError) :
    List EmailRecord × List LogEntry :=
  if isDupError e then (archive, [LogEntry.dupEmailExists])
  else (archive, [LogEntry.unexpectedError e])

/-- One whole mapped promise of the ingestion batch: try the insert, catch
every error. -/
def createEmailStep (fault : EmailRecord → Option JsError) (u : Credential)
    (archive : List EmailRecord) (t : Thread) : List EmailRecord × List LogEntry :=
  match attemptInsert fault u archive t with
  | .ok archive2 => (archive2, [])
  | .error e => catchInsertError archive e

/-- How a promise settles: fulfilled with a value, or rejected with an error. -/
inductive SettleResult (α : Type) where
  | fulfilled (a : α)
  | rejected (e : JsError)
  deriving DecidableEq, Repr

/-- An async function whose whole body sits inside try/catch: it settles
fulfilled whether the body returned or the catch handler ran. -/
def tryCatchSettle {α : Type} (body : Except JsError α) (handler : JsError → α) :
    SettleResult α :=
  match body with
  | .ok a => .fulfilled a
  | .error e => .fulfilled (handler e)

/-- The settle result of one mapped promise of the ingestion batch. -/
def settleOf (fault : EmailRecord → Option JsError) (u : Credential)
    (archive : List EmailRecord) (t : Thread) : SettleResult Unit :=
  tryCatchSettle ((attemptInsert fault u archive t).map (fun _ => ())) (fun _ => ())

/-- The settle results of the whole ingestion batch, archive state threaded
through the successive inserts. -/
def settleList (fault : EmailRecord → Option JsError) (u : Credential)
    (archive : List EmailRecord) : List Thread → List (SettleResult Unit)
  | [] => []
  | t :: ts =>
      settleOf fault u archive t ::
        settleList fault u (createEmailStep fault u archive t).1 ts

/-- The archive and console output after running the whole ingestion batch. -/
def runInserts (fault : EmailRecord → Option JsError) (u : Credential)
    (archive : List EmailRecord) : List Thread → List EmailRecord × List LogEntry
  | [] => (archive, [])
  | t :: ts =>
      let s := createEmailStep fault u archive t
      let rest := runInserts fault u s.1 ts
      (rest.1, s.2 ++ rest.2)

/-- Promise.all: rejects with the first rejection, else fulfills with the list
of values. -/
def promiseAll {α : Type} : List (SettleResult α) → Except JsError (List α)
  | [] => .ok []
  | SettleResult.rejected e :: _ => .error e
  | SettleResult.fulfilled a :: rest => (promiseAll rest).map (fun l => a :: l)

/-- The parameters the ingestion handler passes to the thread listing. -/
structure FetchParams where
  limit : Nat
  expanded : Bool
  deriving DecidableEq, Repr

/-- The thread-listing call of src/server.js lines 140-143: limit 5, expanded.
Modelled from the spec: the mailbox gateway itself is the vendor SDK, which
returns the limit most-recently-updated threads, expanded meaning full message
detail. -/
def threadsListParams : FetchParams := ⟨5, true⟩

/-- The tail of the ingestion handler (src/server.js lines 162-168): await
Promise.all, respond 201 with the fetched threads on success, log and respond
500 on failure. -/
def readEmailsFinish (threads : List Thread) (agg : Except JsError (List Unit)) :
    HttpResponse × List LogEntry :=
  match agg with
  | .ok _ => (⟨201, .jsonThreads threads⟩, [])
  | .error e => (⟨500, .jsonString "Internal server error"⟩, [LogEntry.promiseAllError e])

/-- Everything an ingestion request produces: the response, the email archive
afterwards, and the console output. -/
structure IngestOutcome where
  response : HttpResponse
  archive : List EmailRecord
  logs : List LogEntry
  deriving DecidableEq, Repr

/-- The authenticated part of the read-emails handler (src/server.js lines
138-169), applied to the threads the gateway returned. -/
def readEmails (fault : EmailRecord → Option JsError) (u : Credential)
    (threads : List Thread) (archive : List EmailRecord) : IngestOutcome :=
  let ins := runInserts fault u archive threads
  let fin := readEmailsFinish threads (promiseAll (settleList fault u archive threads))
  ⟨fin.1, ins.1, ins.2 ++ fin.2⟩

/-- Modelled from the spec: the credential store (utils/mock-db, not under
src/) maps an opaque bearer token to a stored credential; an unknown token
resolves to nothing. -/
abbrev CredentialStore := String → Option Credential

/-- The isAuthenticated middleware (src/server.js lines 119-135): a missing or
empty authorization header, or a token the credential store does not resolve,
yields the 401 response; otherwise the resolved user is handed on. -/
def isAuthenticated (find : CredentialStore) (header : Option String) :
    Except HttpResponse Credential :=
  match header with
  | none => .error unauthorizedResponse
  | some tok =>
      if tok = "" then .error unauthorizedResponse
      else
        match find tok with
        | none => .error unauthorizedResponse
        | some u => .ok u

/-- The fixed generation parameters of the completion request
(src/server.js lines 207-214). -/
structure CompletionParams where
  model : String
  prompt : String
  maxTokens : Nat
  topP : Nat
  frequencyPenalty : Nat
  presencePenalty : Nat
  deriving DecidableEq, Repr

/-- A call to an external service made by a protected handler. -/
inductive ExtCall where
  | threadsFetch (p : FetchParams)
  | messageFetch (id : String)
  | fileFetch (id : String)
  | completionCall (p : CompletionParams)
  deriving DecidableEq, Repr

/-- The persistent state a handler can read or write: the two collections. -/
structure World where
  emailArchive : List EmailRecord
  replyArchive : List ReplyRecord
  deriving DecidableEq, Repr

/-- A protected route: the middleware runs first; on a 401 it responds at once
and the handler never runs, so the world is untouched and no external call is
made. -/
def runProtected (find : CredentialStore) (header : Option String)
    (handler : Credential → World → HttpResponse × World × List ExtCall)
    (w : World) : HttpResponse × World × List ExtCall :=
  match isAuthenticated find header with
  | .error resp => (resp, w, [])
  | .ok u => handler u w

/-- The prompt template of src/server.js line 206 (typo preserved from the
source). -/
def gptPrompt (subject snippet : String) : String :=
  "Subject: " ++ subject ++ " \n,Body: " ++ snippet ++
    ",\n Please write a reply for the given email with subject and body sperated"

/-- The completion request of src/server.js lines 207-214. -/
def completionRequest (prompt : String) : CompletionParams :=
  ⟨"text-davinci-003", prompt, 400, 1, 0, 0⟩

/-- emails.find with an ownEmail filter (src/server.js lines 202-204). -/
def emailsFind (archive : List EmailRecord) (own : String) : List EmailRecord :=
  archive.filter (fun r => decide (r.ownEmail = own))

/-- One unit of asynchronous work dispatched by the forEach of the
read-email-gpt handler: request a completion, then persist the returned text
as a reply owned by the given address. -/
inductive AsyncTask where
  | completionThenPersist (p : CompletionParams) (owner : String)
  deriving DecidableEq, Repr

/-- The tasks the read-email-gpt handler dispatches (src/server.js lines
205-220): one per archived email of the account, none awaited. -/
def readEmailGptTasks (u : Credential) (archive : List EmailRecord) : List AsyncTask :=
  (emailsFind archive u.emailAddress).map (fun r =>
    AsyncTask.completionThenPersist
      (completionRequest (gptPrompt r.subject r.snippet)) u.emailAddress)

/-- The read-email-gpt handler (src/server.js lines 200-222) at the moment it
returns: it has awaited only the emails.find read, dispatched one async task
per archived email without awaiting any of them, and returns the value true;
the reply archive is still whatever it was when the request arrived. -/
def readEmailGpt (u : Credential) (archive : List EmailRecord)
    (replies : List ReplyRecord) : Bool × List AsyncTask × List ReplyRecord :=
  (true, readEmailGptTasks u archive, replies)

/-- Running one dispatched task to completion with a completion engine that
succeeds: the engine's text is persisted as a reply owned by the task's
owner. -/
def applyTask (engine : CompletionParams → String) : AsyncTask → ReplyRecord
  | AsyncTask.completionThenPersist p owner => ⟨engine p, owner⟩

/-- Letting every dispatched task settle, in dispatch order, against the reply
store. -/
def runTasks (engine : CompletionParams → String) (store : List ReplyRecord)
    (ts : List AsyncTask) : List ReplyRecord :=
  ts.foldl (fun s t => s ++ [applyTask engine t]) store

/-- reply.find with a userEmail filter (src/server.js line 228). -/
def replyFind (store : List ReplyRecord) (em : String) : List ReplyRecord :=
  store.filter (fun r => decide (r.userEmail = em))

/-- What the read-replies handler ends with: the value it returns, or the
exception that escapes it. -/
inductive ReadRepliesOutcome where
  | returned (rs : List ReplyRecord)
  | thrown (e : JsError)
  deriving DecidableEq, Repr

/-- The ReferenceError Node raises when the catch block of the read-replies
handler evaluates the unbound identifier e. -/
def referenceError : JsError := ⟨"ReferenceError", none⟩

/-- The read-replies handler (src/server.js lines 225-233) applied to the
result of the store read: on success it returns the list of replies; on
failure the catch block evaluates console.error(e.message) where e is an
unbound identifier, so it throws a ReferenceError before logging anything. -/
def readReplies (readResult : Except JsError (List ReplyRecord)) :
    ReadRepliesOutcome × List LogEntry :=
  match readResult with
  | .ok rs => (ReadRepliesOutcome.returned rs, [])
  | .error _ => (ReadRepliesOutcome.thrown referenceError, [])

/-- The uniqueness invariant of the Email collection: the unique index keys of
the stored records are pairwise distinct. -/
def UniqueKeys (archive : List EmailRecord) : Prop :=
  (archive.map emailKey).Nodup

/-- A thread whose shape breaks the record derivation: no messages, or a first
message with no sender entries. -/
def malformedThread (t : Thread) : Bool :=
  match t.messages with
  | [] => true
  | m :: _ => m.msgFrom.isEmpty

/-! ### Helper lemmas -/

theorem tryCatchSettle_ne_rejected {α : Type} (body : Except JsError α)
    (handler : JsError → α) (e : JsError) :
    tryCatchSettle body handler ≠ SettleResult.rejected e := by
  cases body <;> simp [tryCatchSettle]

theorem settleOf_eq (fault : EmailRecord → Option JsError) (u : Credential)
    (archive : List EmailRecord) (t : Thread) :
    settleOf fault u archive t = SettleResult.fulfilled () := by
  unfold settleOf
  cases h : attemptInsert fault u archive t <;> simp [tryCatchSettle, Except.map, h]

theorem settleList_eq (fault : EmailRecord → Option JsError) (u : Credential) :
    ∀ (ts : List Thread) (archive : List EmailRecord),
      settleList fault u archive ts
        = List.replicate ts.length (SettleResult.fulfilled ())
  | [], _ => rfl
  | t :: ts, archive => by
      simp [settleList, settleOf_eq, List.replicate,
        settleList_eq fault u ts (createEmailStep fault u archive t).1]

theorem promiseAll_replicate :
    ∀ n : Nat,
      promiseAll (List.replicate n (SettleResult.fulfilled ()))
        = Except.ok (List.replicate n ())
  | 0 => rfl
  | n + 1 => by
      simp [List.replicate, promiseAll, promiseAll_replicate n, Except.map]

theorem readEmails_response (fault : EmailRecord → Option JsError) (u : Credential)
    (ts : List Thread) (archive : List EmailRecord) :
    (readEmails fault u ts archive).response = ⟨201, RespBody.jsonThreads ts⟩ := by
  unfold readEmails
  simp [settleList_eq, promiseAll_replicate, readEmailsFinish]

theorem readEmails_archive (fault : EmailRecord → Option JsError) (u : Credential)
    (ts : List Thread) (archive : List EmailRecord) :
    (readEmails fault u ts archive).archive = (runInserts fault u archive ts).1 := rfl

theorem catchInsertError_archive (archive : List EmailRecord) (e : JsError) :
    (catchInsertError archive e).1 = archive := by
  unfold catchInsertError
  split <;> rfl

theorem createEmailStep_archive_of_error (fault : EmailRecord → Option JsError)
    (u : Credential) (archive : List EmailRecord) (t : Thread) (e : JsError)
    (h : attemptInsert fault u archive t = Except.error e) :
    (createEmailStep fault u archive t).1 = archive := by
  unfold createEmailStep
  rw [h]
  exact catchInsertError_archive archive e

theorem runInserts_archive_append (fault : EmailRecord → Option JsError)
    (u : Credential) :
    ∀ (xs ys : List Thread) (archive : List EmailRecord),
      (runInserts fault u archive (xs ++ ys)).1
        = (runInserts fault u (runInserts fault u archive xs).1 ys).1
  | [], _, _ => rfl
  | x :: xs, ys, archive => by
      simp [runInserts, runInserts_archive_append fault u xs ys]

theorem runInserts_skip (fault : EmailRecord → Option JsError) (u : Credential)
    (ts1 ts2 : List Thread) (t : Thread) (archive : List EmailRecord)
    (h : (createEmailStep fault u (runInserts fault u archive ts1).1 t).1
        = (runInserts fault u archive ts1).1) :
    (runInserts fault u archive (ts1 ++ t :: ts2)).1
      = (runInserts fault u archive (ts1 ++ ts2)).1 := by
  rw [runInserts_archive_append, runInserts_archive_append fault u ts1 ts2]
  show (runInserts fault u (createEmailStep fault u _ t).1 ts2).1 = _
  rw [h]

theorem hasKey_append_left (a b : List EmailRecord) (r : EmailRecord)
    (h : hasKey a r = true) : hasKey (a ++ b) r = true := by
  simp only [hasKey, List.any_append, Bool.or_eq_true]
  exact Or.inl h

theorem hasKey_append_self (a : List EmailRecord) (r : EmailRecord) :
    hasKey (a ++ [r]) r = true := by
  simp [hasKey, List.any_append]

theorem hasKey_eq_false_iff (a : List EmailRecord) (r : EmailRecord) :
    hasKey a r = false ↔ ∀ x ∈ a, emailKey x ≠ emailKey r := by
  simp [hasKey]

theorem emailsCreate_dup (fault : EmailRecord → Option JsError)
    (a : List EmailRecord) (r : EmailRecord) (h : hasKey a r = true) :
    emailsCreate fault a r = Except.error mongoDupError := by
  simp [emailsCreate, h]

theorem emailsCreate_fresh_ok (fault : EmailRecord → Option JsError)
    (a : List EmailRecord) (r : EmailRecord) (h1 : hasKey a r = false)
    (h2 : fault r = none) : emailsCreate fault a r = Except.ok (a ++ [r]) := by
  simp [emailsCreate, h1, h2]

theorem attemptInsert_of_derive_error (fault : EmailRecord → Option JsError)
    (u : Credential) (a : List EmailRecord) (t : Thread) (e : JsError)
    (h : deriveRecord u t = Except.error e) :
    attemptInsert fault u a t = Except.error e := by
  unfold attemptInsert
  rw [h]

theorem attemptInsert_of_derive_ok (fault : EmailRecord → Option JsError)
    (u : Credential) (a : List EmailRecord) (t : Thread) (r : EmailRecord)
    (h : deriveRecord u t = Except.ok r) :
    attemptInsert fault u a t = emailsCreate fault a r := by
  unfold attemptInsert
  rw [h]

theorem createEmailStep_of_ok (fault : EmailRecord → Option JsError)
    (u : Credential) (a : List EmailRecord) (t : Thread) (a2 : List EmailRecord)
    (h : attemptInsert fault u a t = Except.ok a2) :
    createEmailStep fault u a t = (a2, []) := by
  unfold createEmailStep
  rw [h]

theorem createEmailStep_of_error (fault : EmailRecord → Option JsError)
    (u : Credential) (a : List EmailRecord) (t : Thread) (e : JsError)
    (h : attemptInsert fault u a t = Except.error e) :
    createEmailStep fault u a t = catchInsertError a e := by
  unfold createEmailStep
  rw [h]

theorem emailsCreate_uniqueKeys (fault : EmailRecord → Option JsError)
    (a : List EmailRecord) (r : EmailRecord) (a2 : List EmailRecord)
    (hu : UniqueKeys a) (h : emailsCreate fault a r = Except.ok a2) :
    UniqueKeys a2 := by
  unfold emailsCreate at h
  by_cases hk : hasKey a r
  · simp [hk] at h
  · rw [Bool.not_eq_true] at hk
    simp only [hk, Bool.false_eq_true, if_false] at h
    cases hf : fault r with
    | some e => rw [hf] at h; exact absurd h (by simp)
    | none =>
        rw [hf] at h
        cases h
        unfold UniqueKeys at hu ⊢
        rw [List.map_append, List.nodup_append]
        refine ⟨hu, List.nodup_singleton _, ?_⟩
        intro k hk1 hk2
        simp only [List.map_cons, List.map_nil, List.mem_singleton] at hk2
        obtain ⟨x, hx, hxk⟩ := List.mem_map.mp hk1
        exact (hasKey_eq_false_iff a r).mp hk x hx (hxk.trans hk2)

theorem createEmailStep_uniqueKeys (fault : EmailRecord → Option JsError)
    (u : Credential) (a : List EmailRecord) (t : Thread) (hu : UniqueKeys a) :
    UniqueKeys (createEmailStep fault u a t).1 := by
  cases hd : deriveRecord u t with
  | error e =>
      rw [createEmailStep_of_error fault u a t e
        (attemptInsert_of_derive_error fault u a t e hd), catchInsertError_archive]
      exact hu
  | ok r =>
      have hai := attemptInsert_of_derive_ok fault u a t r hd
      cases hc : emailsCreate fault a r with
      | error e =>
          rw [createEmailStep_of_error fault u a t e (hai.trans hc),
            catchInsertError_archive]
          exact hu
      | ok a2 =>
          rw [createEmailStep_of_ok fault u a t a2 (hai.trans hc)]
          exact emailsCreate_uniqueKeys fault a r a2 hu hc

theorem runInserts_uniqueKeys (fault : EmailRecord → Option JsError)
    (u : Credential) :
    ∀ (ts : List Thread) (a : List EmailRecord), UniqueKeys a →
      UniqueKeys (runInserts fault u a ts).1
  | [], _, hu => hu
  | t :: ts, a, hu => by
      simp only [runInserts]
      exact runInserts_uniqueKeys fault u ts (createEmailStep fault u a t).1
        (createEmailStep_uniqueKeys fault u a t hu)

theorem createEmailStep_extends (fault : EmailRecord → Option JsError)
    (u : Credential) (a : List EmailRecord) (t : Thread) :
    ∃ ext, (createEmailStep fault u a t).1 = a ++ ext := by
  unfold createEmailStep attemptInsert
  cases hd : deriveRecord u t with
  | error e => exact ⟨[], by rw [catchInsertError_archive, List.append_nil]⟩
  | ok r =>
      unfold emailsCreate
      by_cases hk : hasKey a r
      · exact ⟨[], by simp [hk, catchInsertError_archive]⟩
      · rw [Bool.not_eq_true] at hk
        cases hf : fault r with
        | some e => exact ⟨[], by simp [hk, hf, catchInsertError_archive]⟩
        | none => exact ⟨[r], by simp [hk, hf]⟩

theorem runInserts_extends (fault : EmailRecord → Option JsError) (u : Credential) :
    ∀ (ts : List Thread) (a : List EmailRecord),
      ∃ ext, (runInserts fault u a ts).1 = a ++ ext
  | [], a => ⟨[], by simp [runInserts]⟩
  | t :: ts, a => by
      obtain ⟨e1, h1⟩ := createEmailStep_extends fault u a t
      obtain ⟨e2, h2⟩ := runInserts_extends fault u ts (createEmailStep fault u a t).1
      exact ⟨e1 ++ e2, by simp only [runInserts]; rw [h2, h1, List.append_assoc]⟩

theorem runInserts_hasKey_mono (fault : EmailRecord → Option JsError)
    (u : Credential) (ts : List Thread) (a : List EmailRecord) (r : EmailRecord)
    (h : hasKey a r = true) : hasKey (runInserts fault u a ts).1 r = true := by
  obtain ⟨ext, he⟩ := runInserts_extends fault u ts a
  rw [he]
  exact hasKey_append_left a ext r h

theorem runInserts_key_present (u : Credential) :
    ∀ (ts : List Thread) (a : List EmailRecord) (t : Thread) (r : EmailRecord),
      t ∈ ts → deriveRecord u t = Except.ok r →
      hasKey (runInserts noFault u a ts).1 r = true
  | [], _, _, _, hmem, _ => absurd hmem (List.not_mem_nil _)
  | t1 :: ts, a, t, r, hmem, hder => by
      rcases List.mem_cons.mp hmem with heq | hmem2
      · subst heq
        simp only [runInserts]
        by_cases hk : hasKey a r
        · have hstep : (createEmailStep noFault u a t).1 = a :=
            createEmailStep_archive_of_error noFault u a t mongoDupError
              ((attemptInsert_of_derive_ok noFault u a t r hder).trans
                (emailsCreate_dup noFault a r hk))
          rw [hstep]
          exact runInserts_hasKey_mono noFault u ts a r hk
        · rw [Bool.not_eq_true] at hk
          have hstep : createEmailStep noFault u a t = (a ++ [r], []) :=
            createEmailStep_of_ok noFault u a t (a ++ [r])
              ((attemptInsert_of_derive_ok noFault u a t r hder).trans
                (emailsCreate_fresh_ok noFault a r hk rfl))
          rw [hstep]
          exact runInserts_hasKey_mono noFault u ts (a ++ [r]) r
            (hasKey_append_self a r)
      · simp only [runInserts]
        exact runInserts_key_present u ts (createEmailStep noFault u a t1).1 t r
          hmem2 hder

theorem runInserts_noop (fault : EmailRecord → Option JsError) (u : Credential) :
    ∀ (ts : List Thread) (a : List EmailRecord),
      (∀ t ∈ ts, ∀ r, deriveRecord u t = Except.ok r → hasKey a r = true) →
      (runInserts fault u a ts).1 = a
  | [], _, _ => rfl
  | t :: ts, a, h => by
      have hstep : (createEmailStep fault u a t).1 = a := by
        cases hd : deriveRecord u t with
        | error e =>
            exact createEmailStep_archive_of_error fault u a t e
              (attemptInsert_of_derive_error fault u a t e hd)
        | ok r =>
            exact createEmailStep_archive_of_error fault u a t mongoDupError
              ((attemptInsert_of_derive_ok fault u a t r hd).trans
                (emailsCreate_dup fault a r (h t (List.mem_cons_self t ts) r hd)))
      simp only [runInserts]
      rw [hstep]
      exact runInserts_noop fault u ts a
        (fun t2 hmem r hder => h t2 (List.mem_cons_of_mem t hmem) r hder)

theorem runTasks_eq (engine : CompletionParams → String) :
    ∀ (ts : List AsyncTask) (store : List ReplyRecord),
      runTasks engine store ts = store ++ ts.map (applyTask engine)
  | [], store => by simp [runTasks]
  | t :: ts, store => by
      simp only [runTasks, List.foldl_cons, List.map_cons]
      rw [show List.foldl (fun s t => s ++ [applyTask engine t])
            (store ++ [applyTask engine t]) ts
          = runTasks engine (store ++ [applyTask engine t]) ts from rfl]
      rw [runTasks_eq engine ts (store ++ [applyTask engine t])]
      simp

theorem deriveRecord_of_malformed (u : Credential) (t : Thread)
    (h : malformedThread t = true) : deriveRecord u t = Except.error typeError := by
  unfold malformedThread at h
  unfold deriveRecord
  cases hm : t.messages with
  | nil => rfl
  | cons m ms =>
      rw [hm] at h
      simp at h
      simp [h]

/-! ### The claims -/

/-- C1: ingestion preserves the uniqueness of (accountId, subject, snippet)
over the email archive, and ingesting the same set of fetched threads a second
time leaves the archive exactly as the first ingestion left it — the second
run is a no-op for every already-archived pair. -/
theorem c1_uniqueness_idempotence (u : Credential) (a : List EmailRecord)
    (ts : List Thread) (hu : UniqueKeys a) :
    UniqueKeys (readEmails noFault u ts a).archive ∧
    (readEmails noFault u ts ((readEmails noFault u ts a).archive)).archive
      = (readEmails noFault u ts a).archive := by
  simp only [readEmails_archive]
  constructor
  · exact runInserts_uniqueKeys noFault u ts a hu
  · exact runInserts_noop noFault u ts ((runInserts noFault u a ts).1)
      (fun t hmem r hder => runInserts_key_present u ts a t r hmem hder)

/-- Witness for C1 at a concrete input: the empty archive has unique keys, and
the theorem applies to one well-formed thread. -/
theorem c1_uniqueness_idempotence_witness :
    UniqueKeys [] ∧
    (UniqueKeys (readEmails noFault ⟨"A", "tok", "a@x.com"⟩
        [⟨"s", "sn", [⟨[⟨"b@x.com"⟩]⟩]⟩] []).archive ∧
      (readEmails noFault ⟨"A", "tok", "a@x.com"⟩ [⟨"s", "sn", [⟨[⟨"b@x.com"⟩]⟩]⟩]
          ((readEmails noFault ⟨"A", "tok", "a@x.com"⟩
            [⟨"s", "sn", [⟨[⟨"b@x.com"⟩]⟩]⟩] []).archive)).archive
        = (readEmails noFault ⟨"A", "tok", "a@x.com"⟩
            [⟨"s", "sn", [⟨[⟨"b@x.com"⟩]⟩]⟩] []).archive) :=
  ⟨by simp [UniqueKeys],
    c1_uniqueness_idempotence ⟨"A", "tok", "a@x.com"⟩ []
      [⟨"s", "sn", [⟨[⟨"b@x.com"⟩]⟩]⟩] (by simp [UniqueKeys])⟩

/-- C2: a request to a protected operation whose bearer token is absent, empty
(falsy in the source's truthiness test), or not resolved by the credential
store, gets the 401 Unauthorized response, the persistent state is untouched
and no external call is made, whatever the guarded handler would have done. -/
theorem c2_auth_gate (find : CredentialStore) (header : Option String) (w : World)
    (handler : Credential → World → HttpResponse × World × List ExtCall)
    (h : header = none ∨ header = some "" ∨
      ∃ tok, header = some tok ∧ find tok = none) :
    runProtected find header handler w = (unauthorizedResponse, w, []) := by
  rcases h with h | h | ⟨tok, h1, h2⟩
  · rw [h]; rfl
  · rw [h]; rfl
  · rw [h1]
    by_cases he : tok = ""
    · simp [runProtected, isAuthenticated, he]
    · simp [runProtected, isAuthenticated, he, h2]

/-- Witness for C2 at a concrete input: an empty credential store and a missing
header yield 401 with no effects, for a handler that would have responded 200. -/
theorem c2_auth_gate_witness :
    runProtected (fun _ => none) none
        (fun _ w => (⟨200, RespBody.noBody⟩, w, [ExtCall.threadsFetch ⟨5, true⟩])) ⟨[], []⟩
      = (unauthorizedResponse, ⟨[], []⟩, []) :=
  c2_auth_gate (fun _ => none) none ⟨[], []⟩
    (fun _ w => (⟨200, RespBody.noBody⟩, w, [ExtCall.threadsFetch ⟨5, true⟩]))
    (Or.inl rfl)

/-- C3: when one thread's insert attempt fails with any error, the batch still
responds 201 with the complete fetched thread list, the archive ends exactly
as if the remaining threads had been processed without that thread (the
siblings are unaffected), and when the failure is the duplicate-key error it
is merely logged as already-exists, leaving no error for the caller. -/
theorem c3_failure_isolation (fault : EmailRecord → Option JsError)
    (u : Credential) (a : List EmailRecord) (ts1 ts2 : List Thread) (t : Thread)
    (hfail : ∃ e, attemptInsert fault u (runInserts fault u a ts1).1 t
      = Except.error e) :
    (readEmails fault u (ts1 ++ t :: ts2) a).response
        = ⟨201, RespBody.jsonThreads (ts1 ++ t :: ts2)⟩ ∧
    (runInserts fault u a (ts1 ++ t :: ts2)).1
        = (runInserts fault u a (ts1 ++ ts2)).1 ∧
    (∀ e, attemptInsert fault u (runInserts fault u a ts1).1 t = Except.error e →
      isDupError e = true →
      createEmailStep fault u (runInserts fault u a ts1).1 t
        = ((runInserts fault u a ts1).1, [LogEntry.dupEmailExists])) := by
  obtain ⟨e, he⟩ := hfail
  refine ⟨readEmails_response fault u (ts1 ++ t :: ts2) a, ?_, ?_⟩
  · exact runInserts_skip fault u ts1 ts2 t a
      (createEmailStep_archive_of_error fault u _ t e he)
  · intro e2 he2 hdup
    rw [createEmailStep_of_error fault u _ t e2 he2]
    simp [catchInsertError, hdup]

/-- Witness for C3 at a concrete input: the archive already holds the key of
the single fetched thread, so its insert fails with the duplicate-key error. -/
theorem c3_failure_isolation_witness :
    (∃ e, attemptInsert noFault ⟨"A", "tok", "a@x.com"⟩
        (runInserts noFault ⟨"A", "tok", "a@x.com"⟩
          [⟨"s", "sn", "c@x.com", "a@x.com", "A"⟩] []).1
        ⟨"s", "sn", [⟨[⟨"b@x.com"⟩]⟩]⟩ = Except.error e) ∧
    ((readEmails noFault ⟨"A", "tok", "a@x.com"⟩
        ([] ++ ⟨"s", "sn", [⟨[⟨"b@x.com"⟩]⟩]⟩ :: [])
        [⟨"s", "sn", "c@x.com", "a@x.com", "A"⟩]).response
      = ⟨201, RespBody.jsonThreads ([] ++ ⟨"s", "sn", [⟨[⟨"b@x.com"⟩]⟩]⟩ :: [])⟩ ∧
    (runInserts noFault ⟨"A", "tok", "a@x.com"⟩
        [⟨"s", "sn", "c@x.com", "a@x.com", "A"⟩]
        ([] ++ ⟨"s", "sn", [⟨[⟨"b@x.com"⟩]⟩]⟩ :: [])).1
      = (runInserts noFault ⟨"A", "tok", "a@x.com"⟩
          [⟨"s", "sn", "c@x.com", "a@x.com", "A"⟩] ([] ++ [])).1 ∧
    (∀ e, attemptInsert noFault ⟨"A", "tok", "a@x.com"⟩
        (runInserts noFault ⟨"A", "tok", "a@x.com"⟩
          [⟨"s", "sn", "c@x.com", "a@x.com", "A"⟩] []).1
        ⟨"s", "sn", [⟨[⟨"b@x.com"⟩]⟩]⟩ = Except.error e →
      isDupError e = true →
      createEmailStep noFault ⟨"A", "tok", "a@x.com"⟩
          (runInserts noFault ⟨"A", "tok", "a@x.com"⟩
            [⟨"s", "sn", "c@x.com", "a@x.com", "A"⟩] []).1
          ⟨"s", "sn", [⟨[⟨"b@x.com"⟩]⟩]⟩
        = ((runInserts noFault ⟨"A", "tok", "a@x.com"⟩
            [⟨"s", "sn", "c@x.com", "a@x.com", "A"⟩] []).1,
          [LogEntry.dupEmailExists]))) :=
  ⟨⟨mongoDupError, rfl⟩,
    c3_failure_isolation noFault ⟨"A", "tok", "a@x.com"⟩
      [⟨"s", "sn", "c@x.com", "a@x.com", "A"⟩] [] []
      ⟨"s", "sn", [⟨[⟨"b@x.com"⟩]⟩]⟩ ⟨mongoDupError, rfl⟩⟩

/-- C4: when every completion call succeeds (the engine is a total function),
letting every task dispatched by reply generation settle appends to the reply
store exactly one ReplyRecord per EmailRecord archived under the account's
email at invocation time, whose owner is the account's email and whose body is
the engine's text for that record's prompt. -/
theorem c4_one_reply_per_record (engine : CompletionParams → String)
    (u : Credential) (archive : List EmailRecord) (replies : List ReplyRecord) :
    runTasks engine replies (readEmailGptTasks u archive)
      = replies ++ (emailsFind archive u.emailAddress).map
          (fun r => ⟨engine (completionRequest (gptPrompt r.subject r.snippet)),
            u.emailAddress⟩) ∧
    (runTasks engine replies (readEmailGptTasks u archive)).length
      = replies.length + (emailsFind archive u.emailAddress).length := by
  refine ⟨?_, ?_⟩
  · rw [runTasks_eq engine (readEmailGptTasks u archive) replies]
    simp only [readEmailGptTasks, List.map_map]
    rfl
  · rw [runTasks_eq engine (readEmailGptTasks u archive) replies]
    simp [readEmailGptTasks]

/-- C5: on a successful store read, the read-replies handler returns exactly
the ReplyRecords whose userEmail equals the authenticated account's email, and
logs nothing. -/
theorem c5_reply_listing (store : List ReplyRecord) (u : Credential)
    (r : ReplyRecord) :
    (readReplies (Except.ok (replyFind store u.emailAddress))).1
        = ReadRepliesOutcome.returned (replyFind store u.emailAddress) ∧
    (r ∈ replyFind store u.emailAddress ↔ r ∈ store ∧ r.userEmail = u.emailAddress) ∧
    (readReplies (Except.ok (replyFind store u.emailAddress))).2 = [] := by
  refine ⟨rfl, ?_, rfl⟩
  simp [replyFind, List.mem_filter]

/-- C6: what the code actually does when the store read of read-replies fails:
the catch block evaluates the unbound identifier e, so the handler throws a
ReferenceError and the console output stays empty — the original error is
never logged, contrary to the claim. -/
theorem c6_read_failure_behavior :
    readReplies (Except.error ⟨"MongoNetworkError", none⟩)
      = (ReadRepliesOutcome.thrown referenceError, []) := rfl

/-- C7: reply generation is fire-and-trigger: the value the handler returns is
the constant true, carrying no per-record result and independent of the
account, the archive, and the reply store; at the moment the handler returns
the reply store is untouched; and one asynchronous task per archived record
has been dispatched without any barrier. -/
theorem c7_fire_and_forget (u : Credential) (archive : List EmailRecord)
    (replies : List ReplyRecord) :
    (readEmailGpt u archive replies).1 = true ∧
    (readEmailGpt u archive replies).2.2 = replies ∧
    (readEmailGpt u archive replies).2.1 = readEmailGptTasks u archive ∧
    (readEmailGpt u archive replies).2.1.length
      = (emailsFind archive u.emailAddress).length ∧
    (∀ (u2 : Credential) (a2 : List EmailRecord) (r2 : List ReplyRecord),
      (readEmailGpt u archive replies).1 = (readEmailGpt u2 a2 r2).1) := by
  refine ⟨rfl, rfl, rfl, ?_, fun _ _ _ => rfl⟩
  simp [readEmailGpt, readEmailGptTasks]

/-- C8: the ingestion handler lists threads with limit 5 and expanded detail,
and after the batch has settled it responds 201 carrying the full fetched
thread list; the catch around the aggregate wait maps any error to a generic
500 Internal server error. -/
theorem c8_ingestion_contract (fault : EmailRecord → Option JsError)
    (u : Credential) (a : List EmailRecord) (ts : List Thread) (e : JsError) :
    threadsListParams = ⟨5, true⟩ ∧
    (readEmails fault u ts a).response = ⟨201, RespBody.jsonThreads ts⟩ ∧
    (readEmailsFinish ts (Except.error e)).1
      = ⟨500, RespBody.jsonString "Internal server error"⟩ :=
  ⟨rfl, readEmails_response fault u ts a, rfl⟩

/-- C9: the 500 branch of the ingestion handler is unreachable: every mapped
promise wraps its whole body in try/catch and so never rejects, the aggregate
Promise.all over the batch always fulfills, and whenever the thread fetch
succeeds the handler responds 201. -/
theorem c9_unreachable_500 (fault : EmailRecord → Option JsError)
    (u : Credential) (a : List EmailRecord) (ts : List Thread)
    (body : Except JsError Unit) (handler : JsError → Unit) (e : JsError) :
    tryCatchSettle body handler ≠ SettleResult.rejected e ∧
    promiseAll (settleList fault u a ts) = Except.ok (List.replicate ts.length ()) ∧
    (readEmails fault u ts a).response.status = 201 :=
  ⟨tryCatchSettle_ne_rejected body handler e,
    by rw [settleList_eq]; exact promiseAll_replicate ts.length,
    by rw [readEmails_response]⟩

/-- C10: a malformed thread — no messages, or a first message with no sender
entries — makes the record derivation fail with a TypeError, which the
per-thread catch logs as a non-duplicate unexpected error; the archive ends as
if only the other threads had been ingested, and the response is still 201
with the full thread list, the malformed thread included. -/
theorem c10_malformed_thread (fault : EmailRecord → Option JsError)
    (u : Credential) (a : List EmailRecord) (ts1 ts2 : List Thread) (t : Thread)
    (hm : malformedThread t = true) :
    deriveRecord u t = Except.error typeError ∧
    (∀ a0, createEmailStep fault u a0 t
      = (a0, [LogEntry.unexpectedError typeError])) ∧
    (runInserts fault u a (ts1 ++ t :: ts2)).1
      = (runInserts fault u a (ts1 ++ ts2)).1 ∧
    (readEmails fault u (ts1 ++ t :: ts2) a).response
      = ⟨201, RespBody.jsonThreads (ts1 ++ t :: ts2)⟩ := by
  have hd := deriveRecord_of_malformed u t hm
  have hstep : ∀ a0 : List EmailRecord,
      createEmailStep fault u a0 t = (a0, [LogEntry.unexpectedError typeError]) := by
    intro a0
    rw [createEmailStep_of_error fault u a0 t typeError
      (attemptInsert_of_derive_error fault u a0 t typeError hd)]
    simp [catchInsertError, isDupError, typeError]
  refine ⟨hd, hstep, ?_, readEmails_response fault u (ts1 ++ t :: ts2) a⟩
  exact runInserts_skip fault u ts1 ts2 t a (by rw [hstep])

/-- Witness for C10 at a concrete input: a thread with no messages is
malformed, and the theorem applies to it. -/
theorem c10_malformed_thread_witness :
    malformedThread ⟨"s", "sn", []⟩ = true ∧
    (deriveRecord ⟨"A", "tok", "a@x.com"⟩ ⟨"s", "sn", []⟩
        = Except.error typeError ∧
    (∀ a0, createEmailStep noFault ⟨"A", "tok", "a@x.com"⟩ a0 ⟨"s", "sn", []⟩
      = (a0, [LogEntry.unexpectedError typeError])) ∧
    (runInserts noFault ⟨"A", "tok", "a@x.com"⟩ []
        ([⟨"s2", "sn2", [⟨[⟨"b@x.com"⟩]⟩]⟩] ++ ⟨"s", "sn", []⟩ :: [])).1
      = (runInserts noFault ⟨"A", "tok", "a@x.com"⟩ []
          ([⟨"s2", "sn2", [⟨[⟨"b@x.com"⟩]⟩]⟩] ++ [])).1 ∧
    (readEmails noFault ⟨"A", "tok", "a@x.com"⟩
        ([⟨"s2", "sn2", [⟨[⟨"b@x.com"⟩]⟩]⟩] ++ ⟨"s", "sn", []⟩ :: []) []).response
      = ⟨201, RespBody.jsonThreads
          ([⟨"s2", "sn2", [⟨[⟨"b@x.com"⟩]⟩]⟩] ++ ⟨"s", "sn", []⟩ :: [])⟩) :=
  ⟨rfl, c10_malformed_thread noFault ⟨"A", "tok", "a@x.com"⟩ []
    [⟨"s2", "sn2", [⟨[⟨"b@x.com"⟩]⟩]⟩] [] ⟨"s", "sn", []⟩ rfl⟩

end NylasBe
